import Mathlib

/-!
Verification of the workspace core of caffe2 (`caffe2/core/workspace.cc`).

A `Workspace` owns a map from blob name to blob (`blob_map_`, a `std::map`,
i.e. an ordered unique-key map), a map from net name to net (`net_map_`), an
optional non-owning pointer to a parent workspace (`shared_`), and a lazily
constructed thread pool (`thread_pool_`).  We embed the maps as association
lists with std::map semantics: lookup finds the entry with the key, insertion
replaces an existing entry or inserts at the key-ordered position, erasure
removes the entry with the key.  Object identity (C++ pointer identity) is
embedded as a numeric `id` field allocated from a per-workspace counter.
-/

namespace Caffe2

/-- std::map lookup: the value stored at key `k`, if present. -/
def mapFind {α : Type} : List (String × α) → String → Option α
  | [], _ => none
  | (k', v) :: rest, k => if k' = k then some v else mapFind rest k

/-- std::map insertion / `operator[]` assignment: replace the entry with key
`k` if present, otherwise insert `(k, v)` at its key-ordered position. -/
def mapInsert {α : Type} : List (String × α) → String → α → List (String × α)
  | [], k, v => [(k, v)]
  | (k', v') :: rest, k, v =>
    if k = k' then (k, v) :: rest
    else if k < k' then (k, v) :: (k', v') :: rest
    else (k', v') :: mapInsert rest k v

/-- std::map erase-by-key: remove the entry with key `k`.  A std::map holds at
most one entry per key, so removing every pair with key `k` coincides with
removing the single entry. -/
def mapErase {α : Type} (m : List (String × α)) (k : String) : List (String × α) :=
  m.filter (fun e => e.1 ≠ k)

/-- A blob: a type-erased value cell.  `id` embeds C++ object identity (the
heap address of the `Blob` owned through `unique_ptr`); `content` abstracts the
type-erased payload (`none` for a freshly default-constructed empty blob). -/
structure Blob where
  id : Nat
  content : Option Nat
deriving DecidableEq, Repr

/-- A net instance (`NetBase`).  `id` embeds object identity; `run_ok`
abstracts the boolean result of the collaborator's `Run()`. -/
structure Net where
  id : Nat
  run_ok : Bool
deriving DecidableEq, Repr

/-- Modelled from the spec: the net definition (`NetDef`, a protobuf message
generated from `caffe2/proto/caffe2.proto`, which is not part of the shown
slice).  The spec treats a net as "identified by a mandatory name" and
requires that "the definition carry a non-empty name", so the model carries a
plain `name` string plus the net `type_` string used by the construction
collaborator. -/
structure NetDef where
  name : String
  type_ : String
deriving DecidableEq, Repr

/-- Modelled from the spec: `net_def.has_name()` holds exactly when the
definition carries a non-empty name ("requires the definition carry a
non-empty name (fails otherwise with a usage error)"). -/
def NetDef.hasName (d : NetDef) : Bool := d.name != ""

/-- The thread pool.  `id` embeds object identity, `numThreads` the
construction argument. -/
structure ThreadPool where
  id : Nat
  numThreads : Nat
deriving DecidableEq, Repr

/-- The workspace: `blob_map_`, `net_map_`, the optional parent `shared_`, the
lazily constructed `thread_pool_`, and an allocation counter embedding the
freshness of heap addresses. -/
inductive Workspace : Type where
  | mk (blob_map_ : List (String × Blob)) (net_map_ : List (String × Net))
       (shared_ : Option Workspace) (thread_pool_ : Option ThreadPool)
       (next_id : Nat)

def Workspace.blobMap : Workspace → List (String × Blob)
  | .mk b _ _ _ _ => b

def Workspace.netMap : Workspace → List (String × Net)
  | .mk _ n _ _ _ => n

def Workspace.shared : Workspace → Option Workspace
  | .mk _ _ s _ _ => s

def Workspace.threadPool : Workspace → Option ThreadPool
  | .mk _ _ _ t _ => t

def Workspace.nextId : Workspace → Nat
  | .mk _ _ _ _ i => i

/-- Modelled from the spec: `Workspace::HasBlob` is declared in
`caffe2/core/workspace.h`, which is not part of the shown slice.  Per the
spec's `GetBlob` ("if a parent exists and has the name, delegates to the
parent's lookup (recursively, following the parent chain)") and glossary
("Shared workspace (parent): an optional upstream workspace consulted only for
blob lookups that miss locally"), a blob name is had when it is in the local
map or visible through the parent chain. -/
def Workspace.HasBlob : Workspace → String → Bool
  | .mk bm _ sh _ _, name =>
    (mapFind bm name).isSome ||
      (match sh with
       | some p => p.HasBlob name
       | none => false)

/-- `Workspace::GetBlob` (const overload, workspace.cc lines 126-140): the
local entry if present; otherwise, when a parent exists and has the name,
the parent's (recursive) lookup; otherwise a warning is logged and null is
returned.  The non-const overload (lines 142-145) resolves to the same blob. -/
def Workspace.GetBlob : Workspace → String → Option Blob
  | .mk bm _ sh _ _, name =>
    if (mapFind bm name).isSome then mapFind bm name
    else
      match sh with
      | some p => if p.HasBlob name then p.GetBlob name else none
      | none => none

/-- `Workspace::CreateBlob` (workspace.cc lines 103-111): if a blob with that
name already exists the call skips creation, otherwise it inserts a fresh
default-constructed blob; either way it returns `GetBlob(name)`.

Modelled from the spec: the existence check goes through `HasBlob`, declared
in `workspace.h` (not part of the shown slice); per the spec's `CreateBlob`
("if a blob with that name already exists locally, returns it unchanged
(no-op, not an error); otherwise constructs a new empty blob") and the
shadowing property, the check is against the local map only. -/
def Workspace.CreateBlob : Workspace → String → Workspace × Option Blob
  | .mk bm nm sh tp ni, name =>
    if (mapFind bm name).isSome then
      let ws : Workspace := .mk bm nm sh tp ni
      (ws, ws.GetBlob name)
    else
      let fresh : Blob := { id := ni, content := none }
      let ws' : Workspace := .mk (mapInsert bm name fresh) nm sh tp (ni + 1)
      (ws', ws'.GetBlob name)

/-- `Workspace::RemoveBlob` (workspace.cc lines 113-124): erases the local
entry if present and reports whether removal occurred; never touches the
parent. -/
def Workspace.RemoveBlob : Workspace → String → Workspace × Bool
  | .mk bm nm sh tp ni, name =>
    if (mapFind bm name).isSome then
      (.mk (mapErase bm name) nm sh tp ni, true)
    else
      (.mk bm nm sh tp ni, false)

/-- `Workspace::LocalBlobs` (workspace.cc lines 83-89): the keys of the local
blob map, in map iteration order. -/
def Workspace.LocalBlobs (ws : Workspace) : List String :=
  ws.blobMap.map Prod.fst

/-- `Workspace::Blobs` (workspace.cc lines 91-101): the local keys followed by
the parent's full recursive list when a parent exists. -/
def Workspace.Blobs : Workspace → List String
  | .mk bm _ sh _ _ =>
    match sh with
    | some p => bm.map Prod.fst ++ p.Blobs
    | none => bm.map Prod.fst

/-- The externally observable events of one `CreateNet` call, used to state
ordering between the destruction of an existing net and the run of the
replacement's constructor (the collaborator `caffe2::CreateNet`). -/
inductive NetEvent where
  | destroyed (name : String) (id : Nat)
  | constructorRan (name : String)
deriving DecidableEq, Repr

/-- The message of the `CAFFE_ENFORCE` on workspace.cc line 148. -/
def enforceNoNameMsg : String := "Net definition should have a name."

/-- The message of the `CAFFE_THROW` on workspace.cc lines 151-155. -/
def refuseOverwriteMsg (name : String) : String :=
  "I respectfully refuse to overwrite an existing net of the same name " ++
    name ++ ", unless you explicitly specify overwrite=true."

/-- The outcome of `Workspace::CreateNet`: the exception thrown (if any), the
workspace state after the call, the returned pointer, and the event trace. -/
structure CreateNetResult where
  thrown : Option String
  ws : Workspace
  ret : Option Net
  trace : List NetEvent

def Workspace.eraseNet : Workspace → String → Workspace
  | .mk bm nm sh tp ni, name => .mk bm (mapErase nm name) sh tp ni

def Workspace.insertNet : Workspace → String → Net → Workspace
  | .mk bm nm sh tp ni, name, net => .mk bm (mapInsert nm name net) sh tp ni

/-- `Workspace::CreateNet` (workspace.cc lines 147-175).  `creator` is the
external net-construction collaborator `caffe2::CreateNet(net_def, this)`,
which yields the constructed net or null for an unrecognized type.  The steps,
in source order: enforce that the definition has a name (throw otherwise); if
an entry with that name exists, either throw the refusal (overwrite false) or
erase it — destroying the old net — before anything else; run the
collaborator; store the result under the name; if the result is null, log an
error, erase the entry again and return null. -/
def Workspace.CreateNet (ws : Workspace) (creator : NetDef → Option Net)
    (net_def : NetDef) (overwrite : Bool) : CreateNetResult :=
  if ¬ net_def.hasName then
    { thrown := some enforceNoNameMsg, ws := ws, ret := none, trace := [] }
  else
    match mapFind ws.netMap net_def.name with
    | some old =>
      if ¬ overwrite then
        { thrown := some (refuseOverwriteMsg net_def.name), ws := ws,
          ret := none, trace := [] }
      else
        let ws1 := ws.eraseNet net_def.name
        let tr1 := [NetEvent.destroyed net_def.name old.id]
        match creator net_def with
        | some newNet =>
          { thrown := none, ws := ws1.insertNet net_def.name newNet,
            ret := some newNet,
            trace := tr1 ++ [NetEvent.constructorRan net_def.name] }
        | none =>
          { thrown := none, ws := ws1, ret := none,
            trace := tr1 ++ [NetEvent.constructorRan net_def.name] }
    | none =>
      match creator net_def with
      | some newNet =>
        { thrown := none, ws := ws.insertNet net_def.name newNet,
          ret := some newNet,
          trace := [NetEvent.constructorRan net_def.name] }
      | none =>
        { thrown := none, ws := ws, ret := none,
          trace := [NetEvent.constructorRan net_def.name] }

/-- `Workspace::GetNet` (workspace.cc lines 177-183): strictly local lookup,
null when absent. -/
def Workspace.GetNet (ws : Workspace) (name : String) : Option Net :=
  mapFind ws.netMap name

/-- `Workspace::DeleteNet` (workspace.cc lines 185-189). -/
def Workspace.DeleteNet (ws : Workspace) (name : String) : Workspace :=
  ws.eraseNet name

/-- `Workspace::RunNet` (workspace.cc lines 191-197): false (with an error
log) when the net is absent, otherwise the net's own `Run()` result. -/
def Workspace.RunNet (ws : Workspace) (name : String) : Bool :=
  match mapFind ws.netMap name with
  | none => false
  | some net => net.run_ok

/-- The capping policy of `Workspace::GetThreadPool` (workspace.cc lines
246-262), applied to the detected hardware concurrency when the platform cap
toggle is set: at most 3 detected threads stay unchanged, 4-5 are limited to
3, more than 5 are halved (C++ integer division). -/
def capThreads (applyCap : Bool) (numThreads : Nat) : Nat :=
  if applyCap then
    if numThreads ≤ 3 then numThreads
    else if numThreads ≤ 5 then 3
    else numThreads / 2
  else numThreads

/-- `Workspace::GetThreadPool` (workspace.cc lines 231-269): if the pool was
already constructed return it, otherwise construct one whose thread count is
the capping policy applied to the detected hardware concurrency `hw`, store
it, and return it.  `applyCap` is the platform cap toggle
(`FLAGS_caffe2_threadpool_android_cap` / `FLAGS_caffe2_threadpool_ios_cap`). -/
def Workspace.GetThreadPool : Workspace → Bool → Nat → Workspace × ThreadPool
  | .mk bm nm sh tp ni, applyCap, hw =>
    match tp with
    | some pool => (.mk bm nm sh (some pool) ni, pool)
    | none =>
      let pool : ThreadPool := { id := ni, numThreads := capThreads applyCap hw }
      (.mk bm nm sh (some pool) (ni + 1), pool)

/-- The result of a registered shape-introspection function (`ShapeCall`): the
shape, the shares-data flag, and the capacity in bytes. -/
structure ShapeInfo where
  shape : List Nat
  shares_data : Bool
  capacity : Nat
deriving DecidableEq, Repr

/-- The capacity `PrintBlobSizes` credits to a blob (workspace.cc lines
44-48): zero when the shape function reports that the blob shares another
blob's data, the reported capacity otherwise. -/
def creditedCapacity (info : ShapeInfo) : Nat :=
  if info.shares_data then 0 else info.capacity

/-- The `blob_sizes` vector built by `PrintBlobSizes` before sorting
(workspace.cc lines 37-52): one `(credited capacity, name)` pair per local
blob whose type has a registered shape function, in `LocalBlobs()` order.
`shapeOf` is the external shape-introspection registry composed with the
function call (`GetShapeCallFunction(b->meta().id())` applied to
`b->GetRaw()`); `none` means no function is registered for the blob's type. -/
def blobSizes (ws : Workspace) (shapeOf : Blob → Option ShapeInfo) :
    List (Nat × String) :=
  ws.LocalBlobs.filterMap fun s =>
    match ws.GetBlob s with
    | none => none
    | some b =>
      match shapeOf b with
      | none => none
      | some info => some (creditedCapacity info, s)

/-- `cumtotal` of `PrintBlobSizes` (workspace.cc lines 34, 49): the sum of the
credited capacities. -/
def cumTotal (ws : Workspace) (shapeOf : Blob → Option ShapeInfo) : Nat :=
  ((blobSizes ws shapeOf).map Prod.fst).sum

/-- Sortedness under the comparator of workspace.cc lines 56-58
(`b.first < a.first`, i.e. descending by credited capacity). -/
def SortedDescFst (l : List (Nat × String)) : Prop :=
  List.Pairwise (fun a b => b.1 ≤ a.1) l

/-- The possible print orders of `PrintBlobSizes` (workspace.cc lines 53-79):
`std::sort` guarantees exactly that the printed sequence is a permutation of
`blob_sizes` that is sorted under the comparator — `std::sort` is not a stable
sort, so the order among entries with equal credited capacity is otherwise
unspecified. -/
def PrintBlobSizesOrder (ws : Workspace) (shapeOf : Blob → Option ShapeInfo)
    (out : List (Nat × String)) : Prop :=
  out.Perm (blobSizes ws shapeOf) ∧ SortedDescFst out

/-- The percentage printed for one blob line (workspace.cc line 77):
`100.0 * capacity / cumtotal` when `cumtotal > 0`, else `0.0`.  Embedded over
the rationals. -/
def percentOf (cap total : Nat) : ℚ :=
  if 0 < total then 100 * (cap : ℚ) / (total : ℚ) else 0

/-- Stable descending insertion: the inserted element precedes every later
element of less-or-equal key, so among equal keys the earlier element stays
first. -/
def insDesc (p : Nat × String) : List (Nat × String) → List (Nat × String)
  | [] => [p]
  | q :: rest => if q.1 ≤ p.1 then p :: q :: rest else q :: insDesc p rest

/-- The stable descending sort of the `blob_sizes` vector: what the order
would be if ties were broken by original encounter order. -/
def stableSortDesc : List (Nat × String) → List (Nat × String)
  | [] => []
  | p :: rest => insDesc p (stableSortDesc rest)

/-! ### Map lemmas -/

theorem mapFind_insert_self {α : Type} (m : List (String × α)) (k : String) (v : α) :
    mapFind (mapInsert m k v) k = some v := by
  induction m with
  | nil => simp [mapInsert, mapFind]
  | cons e rest ih =>
    obtain ⟨k', v'⟩ := e
    by_cases hk : k = k'
    · simp [mapInsert, mapFind, hk]
    · by_cases hlt : k < k'
      · simp [mapInsert, mapFind, hk, hlt]
      · have hk' : ¬ k' = k := fun h => hk h.symm
        simp [mapInsert, mapFind, hk, hk', hlt, ih]

theorem length_mapInsert_le {α : Type} (m : List (String × α)) (k : String) (v : α) :
    (mapInsert m k v).length ≤ m.length + 1 := by
  induction m with
  | nil => simp [mapInsert]
  | cons e rest ih =>
    obtain ⟨k', v'⟩ := e
    by_cases hk : k = k'
    · simp [mapInsert, hk]
    · by_cases hlt : k < k'
      · simp [mapInsert, hk, hlt]
      · simpa [mapInsert, hk, hlt] using ih

theorem mapFind_erase_self {α : Type} (m : List (String × α)) (k : String) :
    mapFind (mapErase m k) k = none := by
  induction m with
  | nil => simp [mapErase, mapFind]
  | cons e rest ih =>
    obtain ⟨k', v'⟩ := e
    by_cases hk : k' = k
    · simpa [mapErase, hk] using ih
    · simpa [mapErase, mapFind, hk] using ih

theorem mapFind_some_mem_fst {α : Type} {m : List (String × α)} {k : String} {v : α}
    (h : mapFind m k = some v) : k ∈ m.map Prod.fst := by
  induction m with
  | nil => simp [mapFind] at h
  | cons e rest ih =>
    obtain ⟨k', v'⟩ := e
    by_cases hk : k' = k
    · simp [hk]
    · simp only [mapFind, if_neg hk] at h
      simp only [List.map_cons, List.mem_cons]
      exact Or.inr (ih h)

/-! ### Workspace lemmas -/

theorem blobMap_mk (bm : List (String × Blob)) (nm : List (String × Net))
    (sh : Option Workspace) (tp : Option ThreadPool) (ni : Nat) :
    (Workspace.mk bm nm sh tp ni).blobMap = bm := rfl

theorem netMap_mk (bm : List (String × Blob)) (nm : List (String × Net))
    (sh : Option Workspace) (tp : Option ThreadPool) (ni : Nat) :
    (Workspace.mk bm nm sh tp ni).netMap = nm := rfl

theorem shared_mk (bm : List (String × Blob)) (nm : List (String × Net))
    (sh : Option Workspace) (tp : Option ThreadPool) (ni : Nat) :
    (Workspace.mk bm nm sh tp ni).shared = sh := rfl

theorem hasBlob_of_find {ws : Workspace} {name : String} {b : Blob}
    (h : mapFind ws.blobMap name = some b) : ws.HasBlob name = true := by
  cases ws with
  | mk bm nm sh tp ni =>
    rw [blobMap_mk] at h
    unfold Workspace.HasBlob
    simp [h]

theorem getBlob_local {ws : Workspace} {name : String} {b : Blob}
    (h : mapFind ws.blobMap name = some b) : ws.GetBlob name = some b := by
  cases ws with
  | mk bm nm sh tp ni =>
    rw [blobMap_mk] at h
    unfold Workspace.GetBlob
    simp [h]

/-! ### C1: blob shadowing -/

/-- C1: for every parent workspace owning a blob named `x` and every child
workspace whose `shared_` parent is that workspace with no local blob `x`,
`GetBlob x` on the child returns the parent's blob; after the child calls
`CreateBlob x`, the child's `GetBlob x` returns the blob now owned locally by
the child, and the parent workspace — in particular its blob `x` — is
unchanged. -/
theorem blob_shadowing (p ws : Workspace) (b : Blob) (x : String)
    (hsh : ws.shared = some p)
    (hp : mapFind p.blobMap x = some b)
    (hc : mapFind ws.blobMap x = none) :
    ws.GetBlob x = some b ∧
    mapFind (ws.CreateBlob x).1.blobMap x = (ws.CreateBlob x).2 ∧
    ((ws.CreateBlob x).2).isSome = true ∧
    (ws.CreateBlob x).1.GetBlob x = (ws.CreateBlob x).2 ∧
    (ws.CreateBlob x).1.shared = some p ∧
    mapFind p.blobMap x = some b := by
  cases ws with
  | mk bm nm sh tp ni =>
    rw [shared_mk] at hsh
    rw [blobMap_mk] at hc
    subst hsh
    have hhas := hasBlob_of_find hp
    have hget := getBlob_local hp
    have hfind := mapFind_insert_self bm x ({ id := ni, content := none } : Blob)
    have hget' := @getBlob_local
      (Workspace.mk (mapInsert bm x { id := ni, content := none }) nm (some p) tp (ni + 1))
      x { id := ni, content := none } hfind
    refine ⟨?_, ?_, ?_, ?_, ?_, hp⟩
    · unfold Workspace.GetBlob
      simp [hc, hhas, hget]
    · unfold Workspace.CreateBlob
      simp only [hc, Option.isSome_none, Bool.false_eq_true, if_false]
      simp [blobMap_mk, hfind, hget']
    · unfold Workspace.CreateBlob
      simp [hc, hget']
    · unfold Workspace.CreateBlob
      simp [hc, hget']
    · unfold Workspace.CreateBlob
      simp [hc, shared_mk]

def parentWS : Workspace := .mk [("x", { id := 1, content := some 5 })] [] none none 2

def childWS : Workspace := .mk [] [] (some parentWS) none 0

/-- Witness for C1 at a concrete parent/child pair. -/
theorem blob_shadowing_witness :
    (childWS.shared = some parentWS ∧
     mapFind parentWS.blobMap "x" = some { id := 1, content := some 5 } ∧
     mapFind childWS.blobMap "x" = none) ∧
    childWS.GetBlob "x" = some { id := 1, content := some 5 } ∧
    mapFind (childWS.CreateBlob "x").1.blobMap "x" = (childWS.CreateBlob "x").2 ∧
    ((childWS.CreateBlob "x").2).isSome = true ∧
    (childWS.CreateBlob "x").1.GetBlob "x" = (childWS.CreateBlob "x").2 ∧
    (childWS.CreateBlob "x").1.shared = some parentWS ∧
    mapFind parentWS.blobMap "x" = some { id := 1, content := some 5 } := by
  have h := blob_shadowing parentWS childWS { id := 1, content := some 5 } "x"
    rfl (by decide) (by decide)
  exact ⟨⟨rfl, by decide, by decide⟩, h.1, h.2.1, h.2.2.1, h.2.2.2.1, h.2.2.2.2.1,
    h.2.2.2.2.2⟩

/-! ### C6: CreateBlob idempotence -/

/-- C6: for every workspace and name, calling `CreateBlob` twice returns the
same blob both times (the second call is a complete no-op on the state), the
call always yields a blob, an already existing blob is returned and kept
unchanged (contents preserved), and the local blob count grows by at most one
across both calls. -/
theorem createBlob_idempotent (ws : Workspace) (name : String) :
    ((ws.CreateBlob name).1.CreateBlob name).2 = (ws.CreateBlob name).2 ∧
    ((ws.CreateBlob name).1.CreateBlob name).1 = (ws.CreateBlob name).1 ∧
    ((ws.CreateBlob name).2).isSome = true ∧
    (∀ b : Blob, mapFind ws.blobMap name = some b →
      (ws.CreateBlob name).2 = some b ∧
      mapFind (ws.CreateBlob name).1.blobMap name = some b) ∧
    ((ws.CreateBlob name).1.CreateBlob name).1.blobMap.length ≤
      ws.blobMap.length + 1 := by
  cases ws with
  | mk bm nm sh tp ni =>
    cases hfind : mapFind bm name with
    | some b =>
      have hget := @getBlob_local (Workspace.mk bm nm sh tp ni) name b
        (by rw [blobMap_mk]; exact hfind)
      unfold Workspace.CreateBlob
      simp [hfind, hget, blobMap_mk]
    | none =>
      have hfind' := mapFind_insert_self bm name ({ id := ni, content := none } : Blob)
      have hget' := @getBlob_local
        (Workspace.mk (mapInsert bm name { id := ni, content := none }) nm sh tp (ni + 1))
        name { id := ni, content := none }
        (by rw [blobMap_mk]; exact hfind')
      unfold Workspace.CreateBlob
      simp [hfind, hfind', hget', blobMap_mk, length_mapInsert_le]

def idemWS : Workspace := .mk [("y", { id := 3, content := some 7 })] [] none none 4

/-- Witness for C6 at a concrete workspace holding a blob named `y`. -/
theorem createBlob_idempotent_witness :
    ((idemWS.CreateBlob "y").1.CreateBlob "y").2 = (idemWS.CreateBlob "y").2 ∧
    ((idemWS.CreateBlob "y").1.CreateBlob "y").1 = (idemWS.CreateBlob "y").1 ∧
    mapFind idemWS.blobMap "y" = some { id := 3, content := some 7 } ∧
    (idemWS.CreateBlob "y").2 = some { id := 3, content := some 7 } ∧
    mapFind (idemWS.CreateBlob "y").1.blobMap "y" = some { id := 3, content := some 7 } ∧
    ((idemWS.CreateBlob "y").1.CreateBlob "y").1.blobMap.length ≤
      idemWS.blobMap.length + 1 := by
  have h := createBlob_idempotent idemWS "y"
  have hb := h.2.2.2.1 { id := 3, content := some 7 } (by decide)
  exact ⟨h.1, h.2.1, by decide, hb.1, hb.2, h.2.2.2.2⟩

/-! ### C7: Blobs concatenation without de-duplication -/

theorem Blobs_mk (bm : List (String × Blob)) (nm : List (String × Net))
    (sh : Option Workspace) (tp : Option ThreadPool) (ni : Nat) :
    (Workspace.mk bm nm sh tp ni).Blobs =
      bm.map Prod.fst ++ (match sh with | some p => p.Blobs | none => []) := by
  conv_lhs => unfold Workspace.Blobs
  cases sh with
  | none => simp
  | some p => rfl

/-- C7: for every workspace, `Blobs()` is the list of locally-owned names
followed by the parent's full recursive `Blobs()` list (empty without a
parent), and per-name occurrence counts add up — a name visible in both
scopes appears once per scope, never de-duplicated. -/
theorem blobs_concat_no_dedup (ws : Workspace) :
    (ws.Blobs = ws.LocalBlobs ++
      (match ws.shared with | some p => p.Blobs | none => [])) ∧
    ∀ name : String, ws.Blobs.count name =
      ws.LocalBlobs.count name +
        (match ws.shared with | some p => p.Blobs | none => []).count name := by
  cases ws with
  | mk bm nm sh tp ni =>
    rw [Blobs_mk, shared_mk]
    refine ⟨?_, fun name => ?_⟩
    · simp [Workspace.LocalBlobs, blobMap_mk]
    · simp [Workspace.LocalBlobs, blobMap_mk, List.count_append]

/-! ### Net registry lemmas -/

theorem netMap_eraseNet (ws : Workspace) (name : String) :
    (ws.eraseNet name).netMap = mapErase ws.netMap name := by
  cases ws
  rfl

theorem netMap_insertNet (ws : Workspace) (name : String) (net : Net) :
    (ws.insertNet name net).netMap = mapInsert ws.netMap name net := by
  cases ws
  rfl

/-! ### C2: overwrite refusal with atomicity -/

/-- C2: for every workspace already holding a net named `n`, `CreateNet` with
a definition named `n` and `overwrite = false` throws the refusal error, and
after the failed call the workspace is unchanged: the original net instance is
still registered under `n` and `RunNet n` still invokes its `Run()`. -/
theorem createNet_refuses_overwrite (ws : Workspace) (creator : NetDef → Option Net)
    (d : NetDef) (old : Net)
    (hn : d.hasName = true)
    (hex : mapFind ws.netMap d.name = some old) :
    (ws.CreateNet creator d false).thrown = some (refuseOverwriteMsg d.name) ∧
    (ws.CreateNet creator d false).ws = ws ∧
    (ws.CreateNet creator d false).ret = none ∧
    (ws.CreateNet creator d false).ws.GetNet d.name = some old ∧
    (ws.CreateNet creator d false).ws.RunNet d.name = old.run_ok := by
  unfold Workspace.CreateNet
  simp [hn, hex, Workspace.GetNet, Workspace.RunNet]

def oldNet : Net := { id := 7, run_ok := true }

def netWS : Workspace := .mk [] [("n", oldNet)] none none 8

def defN : NetDef := { name := "n", type_ := "simple" }

def creatorSome : NetDef → Option Net := fun _ => some { id := 9, run_ok := true }

def creatorFail : NetDef → Option Net := fun _ => none

/-- Witness for C2 at a concrete workspace holding net `n`. -/
theorem createNet_refuses_overwrite_witness :
    (defN.hasName = true ∧ mapFind netWS.netMap "n" = some oldNet) ∧
    (netWS.CreateNet creatorSome defN false).thrown = some (refuseOverwriteMsg "n") ∧
    (netWS.CreateNet creatorSome defN false).ws = netWS ∧
    (netWS.CreateNet creatorSome defN false).ret = none ∧
    (netWS.CreateNet creatorSome defN false).ws.GetNet "n" = some oldNet ∧
    (netWS.CreateNet creatorSome defN false).ws.RunNet "n" = true := by
  have h := createNet_refuses_overwrite netWS creatorSome defN oldNet (by decide) (by decide)
  exact ⟨⟨by decide, by decide⟩, h.1, h.2.1, h.2.2.1, h.2.2.2.1, h.2.2.2.2⟩

/-! ### C3: destroy-before-construct ordering -/

/-- C3: for every workspace holding a net named `n`, `CreateNet` for `n` with
`overwrite = true` destroys and removes the existing instance strictly before
the replacement's constructor (the construction collaborator) runs: the event
trace is exactly the destruction of the old net followed by the constructor
run, whatever the collaborator returns. -/
theorem createNet_destroys_before_construct (ws : Workspace)
    (creator : NetDef → Option Net) (d : NetDef) (old : Net)
    (hn : d.hasName = true)
    (hex : mapFind ws.netMap d.name = some old) :
    (ws.CreateNet creator d true).trace =
      [NetEvent.destroyed d.name old.id, NetEvent.constructorRan d.name] := by
  unfold Workspace.CreateNet
  cases hc : creator d <;> simp [hn, hex, hc]

/-- Witness for C3: overwriting net `n` at a concrete workspace. -/
theorem createNet_destroys_before_construct_witness :
    (defN.hasName = true ∧ mapFind netWS.netMap "n" = some oldNet) ∧
    (netWS.CreateNet creatorSome defN true).trace =
      [NetEvent.destroyed "n" 7, NetEvent.constructorRan "n"] := by
  have h := createNet_destroys_before_construct netWS creatorSome defN oldNet
    (by decide) (by decide)
  exact ⟨⟨by decide, by decide⟩, h⟩

/-! ### C4: failed net construction leaves no trace -/

/-- C4: whenever the construction collaborator yields null for a definition
(and the call reaches construction, i.e. the definition is named and no
refusal fires), `CreateNet` returns null without throwing, and afterwards
`GetNet` for that name returns null: the registry holds no entry under the
requested name. -/
theorem createNet_failure_no_trace (ws : Workspace) (creator : NetDef → Option Net)
    (d : NetDef) (overwrite : Bool)
    (hn : d.hasName = true)
    (hfail : creator d = none)
    (hok : overwrite = true ∨ mapFind ws.netMap d.name = none) :
    (ws.CreateNet creator d overwrite).thrown = none ∧
    (ws.CreateNet creator d overwrite).ret = none ∧
    (ws.CreateNet creator d overwrite).ws.GetNet d.name = none := by
  unfold Workspace.CreateNet
  rcases hok with h | h
  · subst h
    cases hex : mapFind ws.netMap d.name with
    | none => simp [hn, hfail, hex, Workspace.GetNet]
    | some old =>
      simp [hn, hfail, hex, Workspace.GetNet, netMap_eraseNet, mapFind_erase_self]
  · simp [hn, hfail, h, Workspace.GetNet]

def emptyNetWS : Workspace := .mk [] [] none none 0

/-- Witness for C4: requesting a net whose construction fails on a workspace
with no net of that name. -/
theorem createNet_failure_no_trace_witness :
    (defN.hasName = true ∧ creatorFail defN = none ∧
     mapFind emptyNetWS.netMap "n" = none) ∧
    (emptyNetWS.CreateNet creatorFail defN false).thrown = none ∧
    (emptyNetWS.CreateNet creatorFail defN false).ret = none ∧
    (emptyNetWS.CreateNet creatorFail defN false).ws.GetNet "n" = none := by
  have h := createNet_failure_no_trace emptyNetWS creatorFail defN false
    (by decide) rfl (Or.inr (by decide))
  exact ⟨⟨by decide, rfl, by decide⟩, h.1, h.2.1, h.2.2⟩

/-! ### C5: mandatory non-empty net name -/

/-- C5: for every net definition that does not carry a non-empty name,
`CreateNet` throws the usage error immediately: nothing is destroyed or
constructed (empty event trace), null is the result, and the workspace — in
particular its net registry — is unchanged. -/
theorem createNet_requires_nonempty_name (ws : Workspace)
    (creator : NetDef → Option Net) (d : NetDef) (overwrite : Bool)
    (hn : d.name = "") :
    (ws.CreateNet creator d overwrite).thrown = some enforceNoNameMsg ∧
    (ws.CreateNet creator d overwrite).ws = ws ∧
    (ws.CreateNet creator d overwrite).ret = none ∧
    (ws.CreateNet creator d overwrite).trace = [] := by
  unfold Workspace.CreateNet
  simp [NetDef.hasName, hn]

def defEmpty : NetDef := { name := "", type_ := "simple" }

/-- Witness for C5: a definition with an empty name is rejected and the
workspace is untouched. -/
theorem createNet_requires_nonempty_name_witness :
    defEmpty.name = "" ∧
    (netWS.CreateNet creatorSome defEmpty true).thrown = some enforceNoNameMsg ∧
    (netWS.CreateNet creatorSome defEmpty true).ws = netWS ∧
    (netWS.CreateNet creatorSome defEmpty true).ret = none ∧
    (netWS.CreateNet creatorSome defEmpty true).trace = [] := by
  have h := createNet_requires_nonempty_name netWS creatorSome defEmpty true (by decide)
  exact ⟨by decide, h.1, h.2.1, h.2.2.1, h.2.2.2⟩

/-! ### C10: overwrite failure is not atomic -/

/-- C10: for every workspace holding a net named `n`, when `CreateNet` is
called for `n` with `overwrite = true` and the construction collaborator
yields null, the old net has already been destroyed (the trace shows its
destruction before the constructor ran), the call returns null without
throwing, and afterwards no net is registered under `n`: the caller is left
with neither the old net nor a new one. -/
theorem createNet_overwrite_failure_loses_old (ws : Workspace)
    (creator : NetDef → Option Net) (d : NetDef) (old : Net)
    (hn : d.hasName = true)
    (hex : mapFind ws.netMap d.name = some old)
    (hfail : creator d = none) :
    (ws.CreateNet creator d true).thrown = none ∧
    (ws.CreateNet creator d true).ret = none ∧
    (ws.CreateNet creator d true).trace =
      [NetEvent.destroyed d.name old.id, NetEvent.constructorRan d.name] ∧
    (ws.CreateNet creator d true).ws.GetNet d.name = none := by
  unfold Workspace.CreateNet
  simp [hn, hex, hfail, Workspace.GetNet, netMap_eraseNet, mapFind_erase_self]

/-- Witness for C10: overwriting net `n` with a failing construction loses the
old net and installs nothing. -/
theorem createNet_overwrite_failure_loses_old_witness :
    (defN.hasName = true ∧ mapFind netWS.netMap "n" = some oldNet ∧
     creatorFail defN = none) ∧
    (netWS.CreateNet creatorFail defN true).thrown = none ∧
    (netWS.CreateNet creatorFail defN true).ret = none ∧
    (netWS.CreateNet creatorFail defN true).trace =
      [NetEvent.destroyed "n" 7, NetEvent.constructorRan "n"] ∧
    (netWS.CreateNet creatorFail defN true).ws.GetNet "n" = none := by
  have h := createNet_overwrite_failure_loses_old netWS creatorFail defN oldNet
    (by decide) (by decide) rfl
  exact ⟨⟨by decide, by decide, rfl⟩, h.1, h.2.1, h.2.2.1, h.2.2.2⟩

/-! ### C8: thread pool sizing policy -/

theorem threadPool_mk (bm : List (String × Blob)) (nm : List (String × Net))
    (sh : Option Workspace) (tp : Option ThreadPool) (ni : Nat) :
    (Workspace.mk bm nm sh tp ni).threadPool = tp := rfl

/-- C8: with the platform cap toggle enabled the constructed pool's thread
count is the detected concurrency `n` unchanged for `n ≤ 3`, exactly 3 for
`4 ≤ n ≤ 5`, and `n / 2` (integer division) for `n > 5`; with the toggle
disabled it is `n`; a first `GetThreadPool` call on a workspace without a pool
constructs one of that size, and every later call returns the same pool
instance and leaves the workspace unchanged. -/
theorem getThreadPool_policy (ws : Workspace) (applyCap : Bool) (hw n : Nat) :
    (n ≤ 3 → capThreads true n = n) ∧
    (4 ≤ n → n ≤ 5 → capThreads true n = 3) ∧
    (5 < n → capThreads true n = n / 2) ∧
    capThreads false n = n ∧
    (ws.threadPool = none →
      ((ws.GetThreadPool applyCap hw).2).numThreads = capThreads applyCap hw) ∧
    ((ws.GetThreadPool applyCap hw).1.GetThreadPool applyCap hw).2 =
      (ws.GetThreadPool applyCap hw).2 ∧
    ((ws.GetThreadPool applyCap hw).1.GetThreadPool applyCap hw).1 =
      (ws.GetThreadPool applyCap hw).1 := by
  refine ⟨?_, ?_, ?_, ?_, ?_, ?_, ?_⟩
  · intro h
    simp [capThreads, h]
  · intro h1 h2
    have h3 : ¬ n ≤ 3 := by omega
    simp [capThreads, h3, h2]
  · intro h
    have h3 : ¬ n ≤ 3 := by omega
    have h5 : ¬ n ≤ 5 := by omega
    simp [capThreads, h3, h5]
  · simp [capThreads]
  · intro hnp
    cases ws with
    | mk bm nm sh tp ni =>
      rw [threadPool_mk] at hnp
      subst hnp
      rfl
  · cases ws with
    | mk bm nm sh tp ni => cases tp <;> rfl
  · cases ws with
    | mk bm nm sh tp ni => cases tp <;> rfl

def tpWS : Workspace := .mk [] [] none none 0

/-- Witness for C8 at detected concurrencies 2, 4 and 8 and a concrete
workspace without a pool. -/
theorem getThreadPool_policy_witness :
    capThreads true 2 = 2 ∧ capThreads true 4 = 3 ∧ capThreads true 8 = 4 ∧
    capThreads false 8 = 8 ∧
    tpWS.threadPool = none ∧
    ((tpWS.GetThreadPool true 8).2).numThreads = capThreads true 8 ∧
    ((tpWS.GetThreadPool true 8).1.GetThreadPool true 8).2 =
      (tpWS.GetThreadPool true 8).2 ∧
    ((tpWS.GetThreadPool true 8).1.GetThreadPool true 8).1 =
      (tpWS.GetThreadPool true 8).1 := by
  have h2 := getThreadPool_policy tpWS true 8 2
  have h4 := getThreadPool_policy tpWS true 8 4
  have h8 := getThreadPool_policy tpWS true 8 8
  exact ⟨h2.1 (by decide), h4.2.1 (by decide) (by decide), h8.2.2.1 (by decide),
    h8.2.2.2.1, rfl, h8.2.2.2.2.1 rfl, h8.2.2.2.2.2.1, h8.2.2.2.2.2.2⟩

/-! ### C9: diagnostics ranking -/

def ws9 : Workspace :=
  .mk [("a", { id := 0, content := none }), ("b", { id := 1, content := none })]
    [] none none 2

def shapeOf9 : Blob → Option ShapeInfo :=
  fun _ => some { shape := [1], shares_data := false, capacity := 5 }

/-- Counterexample to C9 as stated: with two local blobs `a` and `b` whose
shape functions both report capacity 5, the order
`[(5, b), (5, a)]` is among the print orders the code (`std::sort` under the
descending comparator) allows, yet it differs from the descending sort that
breaks ties by original encounter order — `std::sort` is not a stable sort,
so ties are not guaranteed to keep encounter order. -/
theorem printBlobSizes_not_stable :
    PrintBlobSizesOrder ws9 shapeOf9 [(5, "b"), (5, "a")] ∧
    [((5 : Nat), "b"), (5, "a")] ≠ stableSortDesc (blobSizes ws9 shapeOf9) := by
  refine ⟨⟨?_, ?_⟩, ?_⟩
  · have hbs : blobSizes ws9 shapeOf9 = [(5, "a"), (5, "b")] := by decide
    rw [hbs]
    exact List.Perm.swap (5, "a") (5, "b") []
  · unfold SortedDescFst
    decide
  · decide

/-- C9 amended: the per-blob lines of `PrintBlobSizes` are ordered by
descending credited capacity and are exactly the local blobs with a
registered shape function; a blob whose shape function reports data-sharing
is credited exactly zero bytes; each percentage is 0 when the total local
capacity is zero.  The order among blobs of equal credited capacity is
unspecified (`std::sort` is not stable). -/
theorem printBlobSizes_descending (ws : Workspace)
    (shapeOf : Blob → Option ShapeInfo) (out : List (Nat × String))
    (h : PrintBlobSizesOrder ws shapeOf out) :
    SortedDescFst out ∧
    out.Perm (blobSizes ws shapeOf) ∧
    (∀ (s : String) (b : Blob) (info : ShapeInfo),
      mapFind ws.blobMap s = some b → shapeOf b = some info →
      (creditedCapacity info, s) ∈ out) ∧
    (∀ info : ShapeInfo, info.shares_data = true → creditedCapacity info = 0) ∧
    (∀ cap : Nat, percentOf cap 0 = 0) := by
  refine ⟨h.2, h.1, ?_, ?_, ?_⟩
  · intro s b info hfind hshape
    have hget := getBlob_local hfind
    have hmem : (creditedCapacity info, s) ∈ blobSizes ws shapeOf := by
      unfold blobSizes
      rw [List.mem_filterMap]
      refine ⟨s, ?_, ?_⟩
      · unfold Workspace.LocalBlobs
        exact mapFind_some_mem_fst hfind
      · simp [hget, hshape]
    exact h.1.mem_iff.mpr hmem
  · intro info hsh
    simp [creditedCapacity, hsh]
  · intro cap
    simp [percentOf]

/-- Witness for C9 (amended): a concrete allowed print order, with the blob
`a` line present and the zero-total percentage. -/
theorem printBlobSizes_descending_witness :
    PrintBlobSizesOrder ws9 shapeOf9 [(5, "a"), (5, "b")] ∧
    SortedDescFst [((5 : Nat), "a"), (5, "b")] ∧
    ((5 : Nat), "a") ∈ ([(5, "a"), (5, "b")] : List (Nat × String)) ∧
    percentOf 5 0 = 0 := by
  have horder : PrintBlobSizesOrder ws9 shapeOf9 [(5, "a"), (5, "b")] := by
    constructor
    · have hbs : blobSizes ws9 shapeOf9 = [(5, "a"), (5, "b")] := by decide
      rw [hbs]
    · unfold SortedDescFst
      decide
  have h := printBlobSizes_descending ws9 shapeOf9 [(5, "a"), (5, "b")] horder
  refine ⟨horder, h.1, ?_, h.2.2.2.2 5⟩
  have hmem := h.2.2.1 "a" { id := 0, content := none }
    { shape := [1], shares_data := false, capacity := 5 } (by decide) rfl
  exact hmem

end Caffe2
